import Mathlib

/-!
Verification of the ccap camera-capture core bundled in this repository.

The definitions below are a shallow embedding of the C++ sources under
src/bundle/ege_src/3rdparty/ccap: pixel-format bit constants and predicates
(include/ccap_def.h), the scalar YUV to RGB fixed-point math
(include/ccap_convert.h), the conversion dispatch and the colorShuffle
kernel (src/ccap_convert.cpp, src/ccap_convert_frame.cpp), the SIMD
backend selection (src/ccap_convert.cpp, src/ccap_convert_avx2.cpp),
the default allocator (src/ccap_core.cpp) and the provider queue,
grab and property table (src/ccap_imp.cpp).
-/

namespace Ccap

/-! ## Pixel format constants (include/ccap_def.h, PixelFormatConstants) -/

def kPixelFormatRGBBit : Nat := 1 <<< 3

def kPixelFormatBGRBit : Nat := 1 <<< 4

def kPixelFormatYUVColorBit : Nat := 1 <<< 16

def kPixelFormatFullRangeBit : Nat := 1 <<< 17

def kPixelFormatYUVColorFullRangeBit : Nat := kPixelFormatFullRangeBit ||| kPixelFormatYUVColorBit

def kPixelFormatRGBColorBit : Nat := 1 <<< 18

def kPixelFormatAlphaColorBit : Nat := 1 <<< 19

def kPixelFormatRGBAColorBit : Nat := kPixelFormatRGBColorBit ||| kPixelFormatAlphaColorBit

/-! ## PixelFormat values (include/ccap_def.h, enum class PixelFormat).
The YUYV/UYVY entries are not present in the bundled copy of ccap_def.h even
though the .cpp files of the same bundle use them, so those four are
reconstructed; everything else is taken verbatim from ccap_def.h. -/

def PixelFormat.Unknown : Nat := 0

def PixelFormat.NV12 : Nat := 1 ||| kPixelFormatYUVColorBit

def PixelFormat.NV12f : Nat := PixelFormat.NV12 ||| kPixelFormatYUVColorFullRangeBit

def PixelFormat.I420 : Nat := (1 <<< 2) ||| kPixelFormatYUVColorBit

def PixelFormat.I420f : Nat := PixelFormat.I420 ||| kPixelFormatYUVColorFullRangeBit

/-- Modelled from the spec: the C++ enum entry PixelFormat::YUYV is missing
from the bundled include/ccap_def.h, although src/ccap_convert_frame.cpp,
src/ccap_utils.cpp, src/ccap_imp_linux.cpp use it and src/ccap_c.cpp
static-asserts it equal to CCAP_PIXEL_FORMAT_YUYV of include/ccap_c.h.
The spec gives YUYV = bit16 or 8. -/
def PixelFormat.YUYV : Nat := (1 <<< 3) ||| kPixelFormatYUVColorBit

/-- Modelled from the spec: YUYVf = YUYV or bit17 (see PixelFormat.YUYV). -/
def PixelFormat.YUYVf : Nat := PixelFormat.YUYV ||| kPixelFormatFullRangeBit

/-- Modelled from the spec: the C++ enum entry PixelFormat::UYVY is missing
from the bundled include/ccap_def.h (see PixelFormat.YUYV). The spec gives
UYVY = bit16 or 16. -/
def PixelFormat.UYVY : Nat := (1 <<< 4) ||| kPixelFormatYUVColorBit

/-- Modelled from the spec: UYVYf = UYVY or bit17 (see PixelFormat.UYVY). -/
def PixelFormat.UYVYf : Nat := PixelFormat.UYVY ||| kPixelFormatFullRangeBit

def PixelFormat.RGB24 : Nat := kPixelFormatRGBBit ||| kPixelFormatRGBColorBit

def PixelFormat.BGR24 : Nat := kPixelFormatBGRBit ||| kPixelFormatRGBColorBit

def PixelFormat.RGBA32 : Nat := PixelFormat.RGB24 ||| kPixelFormatRGBAColorBit

def PixelFormat.BGRA32 : Nat := PixelFormat.BGR24 ||| kPixelFormatRGBAColorBit

/-! ## C ABI mirror (include/ccap_c.h, enum CcapPixelFormat), kept in sync
with the C++ enum by the static asserts in src/ccap_c.cpp. -/

def CCAP_PIXEL_FORMAT_NV12 : Nat := 1 ||| (1 <<< 16)

def CCAP_PIXEL_FORMAT_I420 : Nat := (1 <<< 2) ||| (1 <<< 16)

def CCAP_PIXEL_FORMAT_YUYV : Nat := (1 <<< 3) ||| (1 <<< 16)

def CCAP_PIXEL_FORMAT_YUYV_F : Nat := CCAP_PIXEL_FORMAT_YUYV ||| (1 <<< 17)

def CCAP_PIXEL_FORMAT_UYVY : Nat := (1 <<< 4) ||| (1 <<< 16)

def CCAP_PIXEL_FORMAT_UYVY_F : Nat := CCAP_PIXEL_FORMAT_UYVY ||| (1 <<< 17)

/-- include/ccap_def.h, pixelFormatInclude: lhs includes all bits of rhs. -/
def pixelFormatInclude (lhs rhs : Nat) : Bool := lhs &&& rhs == rhs

/-! ## Scalar YUV to RGB math (include/ccap_convert.h).
C ints are embedded as Int; the C arithmetic right shift by 8 on a
(possibly negative) int is floor division by 256. -/

structure Rgb where
  r : Int
  g : Int
  b : Int
  deriving DecidableEq

/-- std::clamp(x, 0, 255) on int. -/
def clamp255 (x : Int) : Int := min (max x 0) 255

/-- include/ccap_convert.h, yuv2rgb601v: BT.601 video range. -/
def yuv2rgb601v (y u v : Int) : Rgb :=
  let y := y - 16
  let u := u - 128
  let v := v - 128
  { r := clamp255 ((298 * y + 409 * v + 128).fdiv 256)
    g := clamp255 ((298 * y - 100 * u - 208 * v + 128).fdiv 256)
    b := clamp255 ((298 * y + 516 * u + 128).fdiv 256) }

/-- include/ccap_convert.h, yuv2rgb709v: BT.709 video range. -/
def yuv2rgb709v (y u v : Int) : Rgb :=
  let y := y - 16
  let u := u - 128
  let v := v - 128
  { r := clamp255 ((298 * y + 459 * v + 128).fdiv 256)
    g := clamp255 ((298 * y - 55 * u - 136 * v + 128).fdiv 256)
    b := clamp255 ((298 * y + 541 * u + 128).fdiv 256) }

/-- include/ccap_convert.h, yuv2rgb601f: BT.601 full range. -/
def yuv2rgb601f (y u v : Int) : Rgb :=
  let u := u - 128
  let v := v - 128
  { r := clamp255 ((256 * y + 351 * v + 128).fdiv 256)
    g := clamp255 ((256 * y - 86 * u - 179 * v + 128).fdiv 256)
    b := clamp255 ((256 * y + 443 * u + 128).fdiv 256) }

/-- include/ccap_convert.h, yuv2rgb709f: BT.709 full range. -/
def yuv2rgb709f (y u v : Int) : Rgb :=
  let u := u - 128
  let v := v - 128
  { r := clamp255 ((256 * y + 403 * v + 128).fdiv 256)
    g := clamp255 ((256 * y - 48 * u - 120 * v + 128).fdiv 256)
    b := clamp255 ((256 * y + 475 * u + 128).fdiv 256) }

/-- include/ccap_convert.h, getYuvToRgbFunc. -/
def getYuvToRgbFunc (is601 isFullRange : Bool) : Int → Int → Int → Rgb :=
  if is601 then
    if isFullRange then yuv2rgb601f else yuv2rgb601v
  else
    if isFullRange then yuv2rgb709f else yuv2rgb709v

/-! ## ConvertFlag (include/ccap_convert.h). -/

def ConvertFlag.BT601 : Nat := 0x1

def ConvertFlag.BT709 : Nat := 0x2

def ConvertFlag.FullRange : Nat := 0x10

def ConvertFlag.VideoRange : Nat := 0x20

def ConvertFlag.Default : Nat := ConvertFlag.BT601 ||| ConvertFlag.VideoRange

/-- operator& on ConvertFlag: true iff the two bit sets intersect. -/
def convertFlagAnd (lhs rhs : Nat) : Bool := lhs &&& rhs != 0

/-- The scalar kernels pick the per-pixel routine from the flag with
getYuvToRgbFunc (flag and BT601, flag and FullRange). -/
def yuvFuncForFlag (flag : Nat) : Int → Int → Int → Rgb :=
  getYuvToRgbFunc (convertFlagAnd flag ConvertFlag.BT601) (convertFlagAnd flag ConvertFlag.FullRange)

/-! ## Spec-side YUV formulas for claim C2. -/

structure YuvCoef where
  cy : Int
  cr : Int
  cgu : Int
  cgv : Int
  cb : Int
  yoff : Int
  deriving DecidableEq

/-- The formula of the claim: coefficients scaled by 64, rounding
(sum + 32) >> 6, clamping to bytes. Stated from the spec, to be compared
with the code. -/
def specYuvFormulaX64 (c : YuvCoef) (yy uu vv : Int) : Rgb :=
  { r := clamp255 ((c.cy * (yy - c.yoff) + c.cr * (vv - 128) + 32).fdiv 64)
    g := clamp255 ((c.cy * (yy - c.yoff) - c.cgu * (uu - 128) - c.cgv * (vv - 128) + 32).fdiv 64)
    b := clamp255 ((c.cy * (yy - c.yoff) + c.cb * (uu - 128) + 32).fdiv 64) }

/-- The x64-scaled coefficient table of the spec for BT.601 video range. -/
def specTable601v64 : YuvCoef := ⟨75, 102, 25, 52, 129, 16⟩

/-- The formula the scalar code actually computes, written generically:
coefficients scaled by 256, rounding (sum + 128) >> 8, clamping to bytes. -/
def specYuvFormulaX256 (c : YuvCoef) (yy uu vv : Int) : Rgb :=
  { r := clamp255 ((c.cy * (yy - c.yoff) + c.cr * (vv - 128) + 128).fdiv 256)
    g := clamp255 ((c.cy * (yy - c.yoff) - c.cgu * (uu - 128) - c.cgv * (vv - 128) + 128).fdiv 256)
    b := clamp255 ((c.cy * (yy - c.yoff) + c.cb * (uu - 128) + 128).fdiv 256) }

/-- The x256-scaled coefficient table read off the four scalar routines of
include/ccap_convert.h, keyed the way getYuvToRgbFunc is. -/
def coefTableX256 (is601 isFullRange : Bool) : YuvCoef :=
  if is601 then
    if isFullRange then ⟨256, 351, 86, 179, 443, 0⟩ else ⟨298, 409, 100, 208, 516, 16⟩
  else
    if isFullRange then ⟨256, 403, 48, 120, 475, 0⟩ else ⟨298, 459, 55, 136, 541, 16⟩

/-! ## Conversion dispatch (src/ccap_convert_frame.cpp). -/

/-- Which branch inplaceConvertFrameImp takes. -/
inductive ConvertAction where
  | noChange
  | flipCopy
  | yuv2yuv
  | yuv2rgbColor
  | rgbShuffle
  | refuse
  deriving DecidableEq

/-- Control flow of inplaceConvertFrameImp (src/ccap_convert_frame.cpp,
lines 183-223). enableLibyuv models the ENABLE_LIBYUV compile switch. -/
def inplaceConvertFrameImpAction (pixelFormat toFormat : Nat) (verticalFlip enableLibyuv : Bool) :
    ConvertAction :=
  if pixelFormat == toFormat then
    if verticalFlip && (toFormat &&& kPixelFormatRGBColorBit != 0) then .flipCopy else .noChange
  else
    let isInputYUV := pixelFormat &&& kPixelFormatYUVColorBit != 0
    let isOutputYUV := toFormat &&& kPixelFormatYUVColorBit != 0
    if isInputYUV || isOutputYUV then
      if enableLibyuv && (isInputYUV && isOutputYUV) then .yuv2yuv
      else if isInputYUV then .yuv2rgbColor
      else .refuse
    else .rgbShuffle

/-- Return value of inplaceConvertFrameImp for each branch: noChange and
refuse return false, the conversion branches return true (each leaf of
inplaceConvertFrameYUV2RGBColor and inplaceConvertFrameRGB returns true). -/
def convertActionReturns : ConvertAction → Bool
  | .noChange => false
  | .refuse => false
  | _ => true

/-- The low-level routine inplaceConvertFrameYUV2RGBColor selects. -/
inductive YuvRoutine where
  | nv12ToBgra32
  | nv12ToRgba32
  | nv12ToBgr24
  | nv12ToRgb24
  | yuyvToBgra32
  | yuyvToRgba32
  | yuyvToBgr24
  | yuyvToRgb24
  | uyvyToBgra32
  | uyvyToRgba32
  | uyvyToBgr24
  | uyvyToRgb24
  | i420ToBgra32
  | i420ToRgba32
  | i420ToBgr24
  | i420ToRgb24
  deriving DecidableEq

/-- Routine selection of inplaceConvertFrameYUV2RGBColor
(src/ccap_convert_frame.cpp, lines 18-121). -/
def yuv2rgbColorRoutine (inputFormat toFormat : Nat) : YuvRoutine :=
  let isInputNV12 := pixelFormatInclude inputFormat PixelFormat.NV12
  let isInputYUYV := pixelFormatInclude inputFormat PixelFormat.YUYV
  let isInputUYVY := pixelFormatInclude inputFormat PixelFormat.UYVY
  let outputHasAlpha := toFormat &&& kPixelFormatAlphaColorBit != 0
  let isOutputBGR := toFormat &&& kPixelFormatBGRBit != 0
  if isInputNV12 then
    if outputHasAlpha then
      if isOutputBGR then .nv12ToBgra32 else .nv12ToRgba32
    else
      if isOutputBGR then .nv12ToBgr24 else .nv12ToRgb24
  else if isInputYUYV then
    if outputHasAlpha then
      if isOutputBGR then .yuyvToBgra32 else .yuyvToRgba32
    else
      if isOutputBGR then .yuyvToBgr24 else .yuyvToRgb24
  else if isInputUYVY then
    if outputHasAlpha then
      if isOutputBGR then .uyvyToBgra32 else .uyvyToRgba32
    else
      if isOutputBGR then .uyvyToBgr24 else .uyvyToRgb24
  else
    if outputHasAlpha then
      if isOutputBGR then .i420ToBgra32 else .i420ToRgba32
    else
      if isOutputBGR then .i420ToBgr24 else .i420ToRgb24

/-- The assertion at the top of inplaceConvertFrameYUV2RGBColor:
the input must be YUV and the destination must not be YUV. -/
def yuv2rgbColorAssertion (inputFormat toFormat : Nat) : Prop :=
  inputFormat &&& kPixelFormatYUVColorBit ≠ 0 ∧ toFormat &&& kPixelFormatYUVColorBit = 0

instance (inputFormat toFormat : Nat) : Decidable (yuv2rgbColorAssertion inputFormat toFormat) := by
  unfold yuv2rgbColorAssertion; infer_instance

/-! ## SIMD backend selection (src/ccap_convert.cpp, src/ccap_convert_avx2.cpp,
src/ccap_convert_neon.cpp). Host capabilities are fixed per process; the
three sEnableXXX globals form the mutable state. -/

structure SimdCaps where
  hasAppleAccelerate : Bool
  hasAVX2 : Bool
  hasNEON : Bool
  deriving DecidableEq

structure SimdState where
  sEnableAppleAccelerate : Bool
  sEnableAVX2 : Bool
  sEnableNEON : Bool
  deriving DecidableEq

/-- src/ccap_convert.cpp, enableAppleAccelerate: store, then report
hasAppleAccelerate() and the stored flag. -/
def enableAppleAccelerate (c : SimdCaps) (enable : Bool) (s : SimdState) : Bool × SimdState :=
  let s := { s with sEnableAppleAccelerate := enable }
  (c.hasAppleAccelerate && s.sEnableAppleAccelerate, s)

/-- src/ccap_convert_avx2.cpp, enableAVX2: store, then report hasAVX2(). -/
def enableAVX2 (c : SimdCaps) (enable : Bool) (s : SimdState) : Bool × SimdState :=
  let s := { s with sEnableAVX2 := enable }
  (c.hasAVX2, s)

/-- src/ccap_convert.cpp, enableNEON: store, then report hasNEON() and the
stored flag. -/
def enableNEON (c : SimdCaps) (enable : Bool) (s : SimdState) : Bool × SimdState :=
  let s := { s with sEnableNEON := enable }
  (c.hasNEON && s.sEnableNEON, s)

def canUseAppleAccelerate (c : SimdCaps) (s : SimdState) : Bool :=
  s.sEnableAppleAccelerate && c.hasAppleAccelerate

def canUseAVX2 (c : SimdCaps) (s : SimdState) : Bool :=
  c.hasAVX2 && s.sEnableAVX2

def canUseNEON (c : SimdCaps) (s : SimdState) : Bool :=
  s.sEnableNEON && c.hasNEON

inductive ConvertBackend where
  | AUTO
  | CPU
  | AVX2
  | AppleAccelerate
  | NEON
  deriving DecidableEq

/-- src/ccap_convert.cpp, getConvertBackend: priority AppleAccelerate,
AVX2, NEON, CPU. -/
def getConvertBackend (c : SimdCaps) (s : SimdState) : ConvertBackend :=
  if canUseAppleAccelerate c s then .AppleAccelerate
  else if canUseAVX2 c s then .AVX2
  else if canUseNEON c s then .NEON
  else .CPU

/-- src/ccap_convert.cpp, setConvertBackend. -/
def setConvertBackend (c : SimdCaps) (backend : ConvertBackend) (s : SimdState) :
    Bool × SimdState :=
  match backend with
  | .AUTO =>
    let s := (enableAppleAccelerate c true s).2
    let s := (enableAVX2 c true s).2
    let s := (enableNEON c true s).2
    (true, s)
  | .AVX2 =>
    let s := (enableAppleAccelerate c false s).2
    let s := (enableNEON c false s).2
    enableAVX2 c true s
  | .AppleAccelerate =>
    let s := (enableAVX2 c false s).2
    let s := (enableNEON c false s).2
    enableAppleAccelerate c true s
  | .NEON =>
    let s := (enableAppleAccelerate c false s).2
    let s := (enableAVX2 c false s).2
    enableNEON c true s
  | .CPU =>
    let s := (enableAppleAccelerate c false s).2
    let s := (enableAVX2 c false s).2
    let s := (enableNEON c false s).2
    (true, s)

/-! ## DefaultAllocator (src/ccap_core.cpp, DefaultAllocator::resize).
The state keeps m_size and whether m_data is non-null; allocOk models
whether ALIGNED_ALLOC succeeds. The returned Bool is true when the early
return kept the existing block. -/

structure AllocState where
  m_size : Nat
  hasData : Bool
  deriving DecidableEq

/-- (size + 31) and not 31: round up to a multiple of 32. -/
def alignUp32 (size : Nat) : Nat := (size + 31) / 32 * 32

/-- src/ccap_core.cpp, DefaultAllocator::resize (lines 61-77). -/
def DefaultAllocator.resize (st : AllocState) (size : Nat) (allocOk : Bool) :
    AllocState × Bool :=
  if size ≤ st.m_size ∧ st.m_size / 2 ≤ size ∧ st.hasData = true then (st, true)
  else if allocOk then (⟨alignUp32 size, true⟩, false)
  else (⟨0, false⟩, false)

/-! ## Provider queue, grab and properties (src/ccap_imp.cpp, ccap_imp.h). -/

/-- Frames are identified by an id; the queue is FIFO with front = oldest. -/
structure QueueState where
  availableFrames : List Nat
  maxAvailableFrameSize : Nat
  deriving DecidableEq

def DEFAULT_MAX_AVAILABLE_FRAME_SIZE : Nat := 3

/-- src/ccap_imp.cpp, ProviderImp::newFrameAvailable (lines 145-164):
the callback may consume the frame; otherwise push, then pop the front
when the queue length exceeds the bound. -/
def newFrameAvailable (st : QueueState) (frame : Nat) (callbackConsumed : Bool) : QueueState :=
  if callbackConsumed then st
  else
    let q := st.availableFrames ++ [frame]
    if st.maxAvailableFrameSize < q.length then
      { st with availableFrames := q.tail }
    else
      { st with availableFrames := q }

/-- src/ccap_imp.cpp, ProviderImp::setMaxAvailableFrameSize (line 141):
stores the new bound and nothing else. -/
def setMaxAvailableFrameSize (st : QueueState) (size : Nat) : QueueState :=
  { st with maxAvailableFrameSize := size }

structure GrabResult where
  result : Option Nat
  queueAfter : List Nat
  checkedStarted : Bool
  waited : Bool
  deriving DecidableEq

/-- src/ccap_imp.cpp, ProviderImp::grab (lines 107-139). The waiting branch
is entered only when the queue is empty and the timeout is positive; there
the provider must be started, and queueAfterWait is the queue observed when
the condition-variable loop ends (empty when every 1-second slice timed
out). checkedStarted records whether isStarted() was consulted and waited
whether the condition variable was used. -/
def ProviderImp.grab (q : List Nat) (timeoutInMs : Nat) (started : Bool)
    (queueAfterWait : List Nat) : GrabResult :=
  if q.isEmpty ∧ 0 < timeoutInMs then
    if !started then ⟨none, q, true, false⟩
    else
      match queueAfterWait with
      | [] => ⟨none, [], true, true⟩
      | f :: rest => ⟨some f, rest, true, true⟩
  else
    match q with
    | [] => ⟨none, [], false, false⟩
    | f :: rest => ⟨some f, rest, false, false⟩

/-! ## Property table (src/ccap_imp.cpp, ProviderImp::set and ProviderImp::get,
ccap_imp.h FrameProperty). Doubles are embedded as rationals; get returning
NAN is embedded as none. -/

inductive PropertyName where
  | Width
  | Height
  | FrameRate
  | PixelFormatInternal
  | PixelFormatOutput
  | FrameOrientation
  deriving DecidableEq

structure FrameProperty where
  fps : Rat
  cameraPixelFormat : Nat
  outputPixelFormat : Nat
  width : Int
  height : Int
  deriving DecidableEq

structure ProviderState where
  m_frameProp : FrameProperty
  m_frameOrientation : Int
  m_propertyChanged : Bool
  deriving DecidableEq

structure Platform where
  isWindows : Bool
  isApple : Bool
  deriving DecidableEq

/-- static_cast from double to int truncates toward zero. -/
def cppIntCast (v : Rat) : Int := if 0 ≤ v then v.floor else v.ceil

/-- Clearing kPixelFormatFullRangeBit within a 32-bit value, as the
intValue &= ~kPixelFormatFullRangeBit lines do on Windows. -/
def clearFullRangeBit (x : Nat) : Nat := x &&& ((2 ^ 32 - 1) ^^^ kPixelFormatFullRangeBit)

/-- src/ccap_imp.cpp, ProviderImp::set (lines 28-73). -/
def ProviderImp.set (pl : Platform) (st : ProviderState) (prop : PropertyName) (value : Rat) :
    Bool × ProviderState :=
  let lastProp := st.m_frameProp
  let st :=
    match prop with
    | .Width => { st with m_frameProp := { st.m_frameProp with width := cppIntCast value } }
    | .Height => { st with m_frameProp := { st.m_frameProp with height := cppIntCast value } }
    | .FrameRate => { st with m_frameProp := { st.m_frameProp with fps := value } }
    | .PixelFormatInternal =>
      let intValue := (cppIntCast value).toNat
      let intValue := if pl.isWindows then clearFullRangeBit intValue else intValue
      { st with m_frameProp := { st.m_frameProp with cameraPixelFormat := intValue } }
    | .PixelFormatOutput =>
      let format := (cppIntCast value).toNat
      let format := if pl.isWindows then clearFullRangeBit format else format
      let st :=
        if format &&& kPixelFormatYUVColorBit != 0 ∧
            st.m_frameProp.cameraPixelFormat = PixelFormat.Unknown then
          { st with m_frameProp := { st.m_frameProp with
              cameraPixelFormat := if pl.isApple then PixelFormat.NV12f else PixelFormat.NV12 } }
        else st
      { st with m_frameProp := { st.m_frameProp with outputPixelFormat := format } }
    | .FrameOrientation => { st with m_frameOrientation := cppIntCast value }
  (true, { st with m_propertyChanged := lastProp ≠ st.m_frameProp })

/-- src/ccap_imp.cpp, ProviderImp::get (lines 75-91): every property except
FrameOrientation is read back from m_frameProp; the default branch returns
NAN, embedded as none. -/
def ProviderImp.get (st : ProviderState) (prop : PropertyName) : Option Rat :=
  match prop with
  | .Width => some (st.m_frameProp.width : Rat)
  | .Height => some (st.m_frameProp.height : Rat)
  | .FrameRate => some st.m_frameProp.fps
  | .PixelFormatInternal => some (st.m_frameProp.cameraPixelFormat : Rat)
  | .PixelFormatOutput => some (st.m_frameProp.outputPixelFormat : Rat)
  | .FrameOrientation => none

/-! ## Byte-buffer model for the pixel kernels.
A buffer is a map from signed byte offsets to byte values; strides may be
negative, exactly as the pointer arithmetic of the kernels allows. Source
and destination are distinct buffers (the callers in
src/ccap_convert_frame.cpp write into a freshly resized allocator). -/

def Buf : Type := Int → Nat

/-- Store one byte. -/
def writeByte (b : Buf) (addr : Int) (v : Nat) : Buf :=
  fun x => if x = addr then v else b x

/-- Store consecutive bytes starting at addr. -/
def writeBytes (b : Buf) (addr : Int) : List Nat → Buf
  | [] => b
  | v :: vs => writeBytes (writeByte b addr v) (addr + 1) vs

/-- Byte k of one destination pixel of colorShuffle
(src/ccap_convert.cpp, lines 127-149): bytes 0..2 come from the source
pixel, optionally with R and B swapped; byte 3 (when outputChannels = 4)
copies the source alpha when inputChannels = 4 and is 0xff otherwise. -/
def shuffledByte (inputChannels : Nat) (swapRB : Bool) (src : Buf) (srcOff : Int) (k : Nat) :
    Nat :=
  if k < 3 then
    if swapRB then src (srcOff + (2 - (k : Int))) else src (srcOff + (k : Int))
  else
    if inputChannels = 4 then src (srcOff + 3) else 0xff

/-- The outputChannels bytes colorShuffle writes for one pixel. -/
def shuffledPixel (inputChannels outputChannels : Nat) (swapRB : Bool) (src : Buf)
    (srcOff : Int) : List Nat :=
  (List.range outputChannels).map (shuffledByte inputChannels swapRB src srcOff)

/-- One row of colorShuffle: pixels x = 0..width-1, reading inputChannels
bytes per pixel at srcRowOff and writing outputChannels bytes per pixel at
dstRowOff. -/
def shuffleRow (inputChannels outputChannels : Nat) (swapRB : Bool) (src : Buf)
    (srcRowOff : Int) (dst : Buf) (dstRowOff : Int) (width : Nat) : Buf :=
  (List.range width).foldl
    (fun d (x : Nat) =>
      writeBytes d (dstRowOff + (x : Int) * outputChannels)
        (shuffledPixel inputChannels outputChannels swapRB src
          (srcRowOff + (x : Int) * inputChannels)))
    dst

/-- Destination row base offset: when height < 0 the code rebases dst to the
last row and negates the stride, so iteration y writes row (abs height)-1-y;
otherwise iteration y writes row y. -/
def dstRowBase (height dstStride : Int) (y : Nat) : Int :=
  if height < 0 then ((height.natAbs : Int) - 1 - (y : Int)) * dstStride
  else (y : Int) * dstStride

/-- src/ccap_convert.cpp, colorShuffle (scalar path, lines 121-151):
rows are read sequentially from src and written at dstRowBase. -/
def colorShuffle (inputChannels outputChannels : Nat) (swapRB : Bool) (src : Buf)
    (srcStride : Int) (dst : Buf) (dstStride : Int) (width : Nat) (height : Int) : Buf :=
  (List.range height.natAbs).foldl
    (fun d (y : Nat) =>
      shuffleRow inputChannels outputChannels swapRB src ((y : Int) * srcStride) d
        (dstRowBase height dstStride y) width)
    dst

/-! ## inplaceConvertFrameRGB (src/ccap_convert_frame.cpp, lines 123-181). -/

structure RGBFrame where
  data0 : Buf
  stride0 : Int
  width : Nat
  height : Nat
  pixelFormat : Nat

/-- src/ccap_convert_frame.cpp, inplaceConvertFrameRGB. alloc is the buffer
returned by the freshly resized allocator. Note that the
inputChannelCount = outputChannelCount branch calls rgbaToBgra, that is
colorShuffle with 4 input and 4 output channels, in both of its arms,
including the 3-channel RGB to BGR arm. -/
def inplaceConvertFrameRGB (frame : RGBFrame) (toFormat : Nat) (verticalFlip : Bool)
    (alloc : Buf) : RGBFrame :=
  let inputBytes := frame.data0
  let inputLineSize := frame.stride0
  let outputChannelCount : Nat := if toFormat &&& kPixelFormatAlphaColorBit != 0 then 4 else 3
  let newLineSize : Int :=
    if outputChannelCount = 3 then ((frame.width * 3 + 31) / 32 * 32 : Nat)
    else (frame.width * 4 : Nat)
  let inputChannelCount : Nat :=
    if frame.pixelFormat &&& kPixelFormatAlphaColorBit != 0 then 4 else 3
  let isInputRGB := frame.pixelFormat &&& kPixelFormatRGBBit != 0
  let isOutputRGB := toFormat &&& kPixelFormatRGBBit != 0
  let swapRB := isInputRGB != isOutputRGB
  let height : Int := if verticalFlip then -(frame.height : Int) else (frame.height : Int)
  let outputBytes :=
    if inputChannelCount = outputChannelCount then
      if inputChannelCount = 4 then
        colorShuffle 4 4 true inputBytes inputLineSize alloc newLineSize frame.width height
      else
        colorShuffle 4 4 true inputBytes inputLineSize alloc newLineSize frame.width height
    else if inputChannelCount = 4 then
      if swapRB then
        colorShuffle 4 3 true inputBytes inputLineSize alloc newLineSize frame.width height
      else
        colorShuffle 4 3 false inputBytes inputLineSize alloc newLineSize frame.width height
    else
      if swapRB then
        colorShuffle 3 4 true inputBytes inputLineSize alloc newLineSize frame.width height
      else
        colorShuffle 3 4 false inputBytes inputLineSize alloc newLineSize frame.width height
  { data0 := outputBytes, stride0 := newLineSize, width := frame.width,
    height := frame.height, pixelFormat := toFormat }

/-! ## Concrete inputs used by the end-to-end evaluations. -/

/-- An all-zero buffer, the initial content of a fresh allocation. -/
def zeroBuf : Buf := fun _ => 0

/-- The 4x2 RGB24 image of the end-to-end scenario: each row is the bytes
00 01 02, 10 11 12, 20 21 22, 30 31 32 (hex), packed with stride 12. -/
def c1Src : Buf := fun a =>
  if 0 ≤ a ∧ a < 24 then ((a.toNat % 12) / 3) * 16 + (a.toNat % 12) % 3 else 0

/-- The 4x2 RGB24 frame built over c1Src. -/
def c1Frame : RGBFrame :=
  { data0 := c1Src, stride0 := 12, width := 4, height := 2, pixelFormat := PixelFormat.RGB24 }

/-- What the claim says RGB24 to BGR24 produces: byte k of pixel (y, x) is
byte 2-k of the same source pixel (bytes 0 and 2 swapped, byte 1 kept). -/
def rgb24SwapExpectedByte (src : Buf) (srcStride : Int) (y x k : Nat) : Nat :=
  src ((y : Int) * srcStride + (x : Int) * 3 + ((2 : Int) - (k : Int)))

/-- A 1x2 three-channel image with rows [1, 2, 3] and [4, 5, 6], stride 3. -/
def c7Src : Buf := fun a =>
  if a = 0 then 1 else if a = 1 then 2 else if a = 2 then 3
  else if a = 3 then 4 else if a = 4 then 5 else if a = 5 then 6 else 0

/-- A provider state with the non-Apple defaults of ccap_imp.h. -/
def testProviderState : ProviderState :=
  { m_frameProp :=
      { fps := 0, cameraPixelFormat := PixelFormat.Unknown,
        outputPixelFormat := PixelFormat.BGR24, width := 640, height := 480 }
    m_frameOrientation := 0
    m_propertyChanged := false }

/-! ## Read-back lemmas for the buffer model. -/

theorem writeBytes_out (vs : List Nat) (b : Buf) (addr x : Int)
    (hx : x < addr ∨ addr + vs.length ≤ x) : writeBytes b addr vs x = b x := by
  induction vs generalizing b addr with
  | nil => rfl
  | cons v vs ih =>
    have hxa : x ≠ addr := by
      rcases hx with hlt | hge
      · exact ne_of_lt hlt
      · simp only [List.length_cons] at hge
        intro hcontra
        omega
    have : writeBytes b addr (v :: vs) x = writeBytes (writeByte b addr v) (addr + 1) vs x := rfl
    rw [this, ih (writeByte b addr v) (addr + 1)]
    · simp [writeByte, hxa]
    · rcases hx with hlt | hge
      · exact Or.inl (by omega)
      · simp only [List.length_cons] at hge
        exact Or.inr (by push_cast at hge ⊢; omega)

theorem writeBytes_getD (vs : List Nat) (b : Buf) (addr : Int) (k : Nat)
    (hk : k < vs.length) : writeBytes b addr vs (addr + k) = vs.getD k 0 := by
  induction vs generalizing b addr k with
  | nil => simp at hk
  | cons v vs ih =>
    cases k with
    | zero =>
      rw [show writeBytes b addr (v :: vs) = writeBytes (writeByte b addr v) (addr + 1) vs from rfl]
      rw [writeBytes_out vs _ _ _ (Or.inl (by omega))]
      simp [writeByte]
    | succ k =>
      rw [show writeBytes b addr (v :: vs) = writeBytes (writeByte b addr v) (addr + 1) vs from rfl]
      have haddr : addr + ((k + 1 : Nat) : Int) = (addr + 1) + (k : Int) := by push_cast; ring
      rw [haddr, ih _ _ k (by simpa using hk)]
      rfl

theorem shuffledPixel_length (ic oc : Nat) (s : Bool) (src : Buf) (so : Int) :
    (shuffledPixel ic oc s src so).length = oc := by
  simp [shuffledPixel]

theorem shuffledPixel_getD (ic oc : Nat) (s : Bool) (src : Buf) (so : Int) (k : Nat)
    (hk : k < oc) : (shuffledPixel ic oc s src so).getD k 0 = shuffledByte ic s src so k := by
  rw [List.getD_eq_getElem _ _ (by simpa [shuffledPixel_length] using hk)]
  simp [shuffledPixel, hk]

theorem shuffleRow_succ (ic oc : Nat) (s : Bool) (src : Buf) (so : Int) (dst : Buf)
    (ro : Int) (w : Nat) :
    shuffleRow ic oc s src so dst ro (w + 1) =
      writeBytes (shuffleRow ic oc s src so dst ro w) (ro + (w : Int) * oc)
        (shuffledPixel ic oc s src (so + (w : Int) * ic)) := by
  simp [shuffleRow, List.range_succ]

theorem shuffleRow_out (ic oc : Nat) (s : Bool) (src : Buf) (so : Int) (dst : Buf)
    (ro : Int) (w : Nat) (x : Int)
    (hx : x < ro ∨ ro + ((w * oc : Nat) : Int) ≤ x) :
    shuffleRow ic oc s src so dst ro w x = dst x := by
  induction w with
  | zero => rfl
  | succ w ih =>
    rw [shuffleRow_succ, writeBytes_out]
    · apply ih
      rcases hx with hlt | hge
      · exact Or.inl hlt
      · exact Or.inr (by push_cast at hge ⊢; nlinarith)
    · rcases hx with hlt | hge
      · exact Or.inl (by nlinarith [Nat.zero_le (w * oc)])
      · exact Or.inr (by rw [shuffledPixel_length]; push_cast at hge ⊢; nlinarith)

theorem shuffleRow_get (ic oc : Nat) (s : Bool) (src : Buf) (so : Int) (dst : Buf)
    (ro : Int) (w x k : Nat) (hx : x < w) (hk : k < oc) :
    shuffleRow ic oc s src so dst ro w (ro + (x : Int) * oc + k) =
      shuffledByte ic s src (so + (x : Int) * ic) k := by
  induction w with
  | zero => omega
  | succ w ih =>
    rw [shuffleRow_succ]
    rcases Nat.lt_succ_iff_lt_or_eq.mp hx with hxw | hxw
    · rw [writeBytes_out]
      · exact ih hxw
      · left
        nlinarith
    · subst hxw
      have haddr : ro + (x : Int) * oc + k = (ro + (x : Int) * oc) + (k : Int) := by ring
      rw [haddr, writeBytes_getD _ _ _ _ (by simpa [shuffledPixel_length] using hk)]
      exact shuffledPixel_getD ic oc s src _ k hk

/-- Generalized row fold used to reason about colorShuffle. -/
def shuffleRows (ic oc : Nat) (s : Bool) (src : Buf) (ss : Int) (B : Nat → Int) (w : Nat)
    (dst : Buf) (n : Nat) : Buf :=
  (List.range n).foldl
    (fun d (y : Nat) => shuffleRow ic oc s src ((y : Int) * ss) d (B y) w) dst

theorem colorShuffle_eq_shuffleRows (ic oc : Nat) (s : Bool) (src : Buf) (ss : Int)
    (dst : Buf) (ds : Int) (w : Nat) (h : Int) :
    colorShuffle ic oc s src ss dst ds w h =
      shuffleRows ic oc s src ss (dstRowBase h ds) w dst h.natAbs := rfl

theorem shuffleRows_succ (ic oc : Nat) (s : Bool) (src : Buf) (ss : Int) (B : Nat → Int)
    (w : Nat) (dst : Buf) (n : Nat) :
    shuffleRows ic oc s src ss B w dst (n + 1) =
      shuffleRow ic oc s src ((n : Int) * ss) (shuffleRows ic oc s src ss B w dst n) (B n) w := by
  simp [shuffleRows, List.range_succ]

theorem shuffleRows_get (ic oc : Nat) (s : Bool) (src : Buf) (ss : Int) (B : Nat → Int)
    (w : Nat) (dst : Buf) (n y x k : Nat) (hy : y < n) (hx : x < w) (hk : k < oc)
    (hdisj : ∀ y2, y < y2 → y2 < n →
      ¬(B y2 ≤ B y + (x : Int) * oc + k ∧ B y + (x : Int) * oc + k < B y2 + ((w * oc : Nat) : Int))) :
    shuffleRows ic oc s src ss B w dst n (B y + (x : Int) * oc + k) =
      shuffledByte ic s src ((y : Int) * ss + (x : Int) * ic) k := by
  induction n with
  | zero => omega
  | succ n ih =>
    rw [shuffleRows_succ]
    rcases Nat.lt_succ_iff_lt_or_eq.mp hy with hyn | hyn
    · rw [shuffleRow_out]
      · exact ih hyn (fun y2 h1 h2 => hdisj y2 h1 (by omega))
      · have := hdisj n hyn (by omega)
        rcases lt_or_le (B y + (x : Int) * oc + k) (B n) with hlt | hge
        · exact Or.inl hlt
        · right
          by_contra hcon
          push_neg at hcon
          exact this ⟨hge, hcon⟩
    · subst hyn
      exact shuffleRow_get ic oc s src _ _ _ w x k hx hk

theorem colorShuffle_get (ic oc : Nat) (s : Bool) (src : Buf) (ss : Int) (dst : Buf)
    (ds : Int) (w : Nat) (h : Int) (y x k : Nat) (hy : y < h.natAbs) (hx : x < w)
    (hk : k < oc) (hds : ((w * oc : Nat) : Int) ≤ ds) :
    colorShuffle ic oc s src ss dst ds w h (dstRowBase h ds y + (x : Int) * oc + k) =
      shuffledByte ic s src ((y : Int) * ss + (x : Int) * ic) k := by
  rw [colorShuffle_eq_shuffleRows]
  apply shuffleRows_get ic oc s src ss _ w dst h.natAbs y x k hy hx hk
  intro y2 hyy2 hy2n
  rintro ⟨hlow, hhigh⟩
  have hpix : (0 : Int) ≤ (x : Int) * oc + k ∧ (x : Int) * oc + k < ((w * oc : Nat) : Int) := by
    constructor
    · positivity
    · push_cast
      nlinarith
  have hds0 : (0 : Int) ≤ ds := le_trans (by positivity) hds
  unfold dstRowBase at hlow hhigh
  by_cases hneg : h < 0
  · simp only [if_pos hneg] at hlow hhigh
    -- row y2 is written at a strictly smaller base than row y
    have hbase : ((h.natAbs : Int) - 1 - (y2 : Int)) * ds + ds ≤
        ((h.natAbs : Int) - 1 - (y : Int)) * ds := by
      have h1 : ((h.natAbs : Int) - 1 - (y2 : Int)) + 1 ≤ ((h.natAbs : Int) - 1 - (y : Int)) := by
        push_cast
        omega
      nlinarith
    have := hpix.1
    have := hpix.2
    nlinarith [hpix.1, hpix.2, hds]
  · simp only [if_neg hneg] at hlow hhigh
    have hbase : ((y : Int)) * ds + ds ≤ ((y2 : Int)) * ds := by
      have h1 : (y : Int) + 1 ≤ (y2 : Int) := by omega
      nlinarith
    nlinarith [hpix.1, hpix.2, hds]

/-! ## Claim theorems. -/

/-- C2, counterexample: at (Y, U, V) = (115, 128, 128) with BT.601 video
range, the scalar routine of the code (298-scaled, +128 >> 8) yields R =
115 while the x64-scaled formula of the claim (75-scaled, +32 >> 6) yields
R = 116, so the scalar computation does not equal the claimed formula. -/
theorem C2_counterexample :
    yuvFuncForFlag ConvertFlag.Default 115 128 128 ≠
      specYuvFormulaX64 specTable601v64 115 128 128 := by decide

/-- C2 (amended): for every input triple and every ConvertFlag (hence each
of the four recognized variants), the scalar YUV to RGB computation equals
clamp((Cy (Y - Yoff) + Cr (V - 128) + 128) >> 8) and the analogous G and B
formulas, with coefficients scaled by 256: BT.601/Video (298, 409, 100,
208, 516, Yoff 16), BT.601/Full (256, 351, 86, 179, 443, 0), BT.709/Video
(298, 459, 55, 136, 541, 16), BT.709/Full (256, 403, 48, 120, 475, 0). -/
theorem C2_scalar_yuv_matches_x256_table (flag : Nat) (yy uu vv : Int) :
    yuvFuncForFlag flag yy uu vv =
      specYuvFormulaX256
        (coefTableX256 (convertFlagAnd flag ConvertFlag.BT601)
          (convertFlagAnd flag ConvertFlag.FullRange)) yy uu vv := by
  unfold yuvFuncForFlag getYuvToRgbFunc
  cases convertFlagAnd flag ConvertFlag.BT601 <;>
    cases convertFlagAnd flag ConvertFlag.FullRange
  · show yuv2rgb709v yy uu vv = specYuvFormulaX256 (coefTableX256 false false) yy uu vv
    simp only [yuv2rgb709v, specYuvFormulaX256, coefTableX256, Rgb.mk.injEq,
      Bool.false_eq_true, if_false]
  · show yuv2rgb709f yy uu vv = specYuvFormulaX256 (coefTableX256 false true) yy uu vv
    simp only [yuv2rgb709f, specYuvFormulaX256, coefTableX256, Rgb.mk.injEq,
      Bool.false_eq_true, if_false, if_true]
    refine ⟨?_, ?_, ?_⟩ <;> (congr 1; congr 1; ring)
  · show yuv2rgb601v yy uu vv = specYuvFormulaX256 (coefTableX256 true false) yy uu vv
    simp only [yuv2rgb601v, specYuvFormulaX256, coefTableX256, Rgb.mk.injEq,
      Bool.false_eq_true, if_false, if_true]
  · show yuv2rgb601f yy uu vv = specYuvFormulaX256 (coefTableX256 true true) yy uu vv
    simp only [yuv2rgb601f, specYuvFormulaX256, coefTableX256, Rgb.mk.injEq, if_true]
    refine ⟨?_, ?_, ?_⟩ <;> (congr 1; congr 1; ring)

/-- C3: with the libyuv path absent, converting a frame between two
distinct YUV formats (here NV12 to I420) does not return false: the
dispatch falls through to inplaceConvertFrameYUV2RGBColor, which violates
its own assertion (the destination must not be YUV), selects the
nv12ToRgb24 routine and reports success. -/
theorem C3_yuv_to_yuv_not_refused :
    inplaceConvertFrameImpAction PixelFormat.NV12 PixelFormat.I420 false false =
      ConvertAction.yuv2rgbColor ∧
    convertActionReturns
      (inplaceConvertFrameImpAction PixelFormat.NV12 PixelFormat.I420 false false) = true ∧
    yuv2rgbColorRoutine PixelFormat.NV12 PixelFormat.I420 = YuvRoutine.nv12ToRgb24 ∧
    ¬yuv2rgbColorAssertion PixelFormat.NV12 PixelFormat.I420 := by decide

/-- C4: the packed 4:2:2 formats have the claimed bit encodings, YUYV =
bit16 or 8, YUYVf = YUYV or bit17, UYVY = bit16 or 16, UYVYf = UYVY or
bit17, alongside NV12 = bit16 or 1 and I420 = bit16 or 4, and they agree
with the C ABI values pinned by the static asserts of src/ccap_c.cpp. -/
theorem C4_packed_422_encodings :
    PixelFormat.YUYV = kPixelFormatYUVColorBit ||| 8 ∧
    PixelFormat.YUYVf = PixelFormat.YUYV ||| kPixelFormatFullRangeBit ∧
    PixelFormat.UYVY = kPixelFormatYUVColorBit ||| 16 ∧
    PixelFormat.UYVYf = PixelFormat.UYVY ||| kPixelFormatFullRangeBit ∧
    PixelFormat.NV12 = kPixelFormatYUVColorBit ||| 1 ∧
    PixelFormat.I420 = kPixelFormatYUVColorBit ||| 4 ∧
    PixelFormat.YUYV = CCAP_PIXEL_FORMAT_YUYV ∧
    PixelFormat.YUYVf = CCAP_PIXEL_FORMAT_YUYV_F ∧
    PixelFormat.UYVY = CCAP_PIXEL_FORMAT_UYVY ∧
    PixelFormat.UYVYf = CCAP_PIXEL_FORMAT_UYVY_F ∧
    PixelFormat.NV12 = CCAP_PIXEL_FORMAT_NV12 ∧
    PixelFormat.I420 = CCAP_PIXEL_FORMAT_I420 := by decide

/-- C5: for positive n and an allocator whose size is a multiple of 32 (as
every block DefaultAllocator ever holds is), resize(n) keeps the current
block exactly when n is at most the current size, the current size is at
most 2 n and a block is held; otherwise, when allocation succeeds, the new
size is n rounded up to a multiple of 32. -/
theorem C5_resize_reuse_iff (st : AllocState) (n : Nat) (_hn : 0 < n)
    (hal : 32 ∣ st.m_size) :
    ((DefaultAllocator.resize st n true).2 = true ↔
      n ≤ st.m_size ∧ st.m_size ≤ 2 * n ∧ st.hasData = true) ∧
    ((DefaultAllocator.resize st n true).2 = true →
      (DefaultAllocator.resize st n true).1 = st) ∧
    ((DefaultAllocator.resize st n true).2 = false →
      (DefaultAllocator.resize st n true).1.m_size = alignUp32 n ∧
      alignUp32 n = 32 * ((n + 31) / 32)) := by
  obtain ⟨m, hm⟩ := hal
  by_cases hcond : n ≤ st.m_size ∧ st.m_size / 2 ≤ n ∧ st.hasData = true
  · rw [DefaultAllocator.resize, if_pos hcond]
    refine ⟨⟨fun _ => ⟨hcond.1, by omega, hcond.2.2⟩, fun _ => rfl⟩, fun _ => rfl, fun hfalse => by simp at hfalse⟩
  · rw [DefaultAllocator.resize, if_neg hcond, if_pos rfl]
    refine ⟨⟨fun htrue => by simp at htrue, fun hclaim => absurd ⟨hclaim.1, by omega, hclaim.2.2⟩ hcond⟩,
      fun htrue => by simp at htrue, fun _ => ⟨rfl, by rw [alignUp32, Nat.mul_comm]⟩⟩

/-- C5 witness: a held 64-byte block is reused for n = 50. -/
theorem C5_resize_reuse_iff_witness :
    ((DefaultAllocator.resize ⟨64, true⟩ 50 true).2 = true ↔
      50 ≤ 64 ∧ 64 ≤ 2 * 50 ∧ true = true) ∧
    ((DefaultAllocator.resize ⟨64, true⟩ 50 true).2 = true →
      (DefaultAllocator.resize ⟨64, true⟩ 50 true).1 = ⟨64, true⟩) ∧
    ((DefaultAllocator.resize ⟨64, true⟩ 50 true).2 = false →
      (DefaultAllocator.resize ⟨64, true⟩ 50 true).1.m_size = alignUp32 50 ∧
      alignUp32 50 = 32 * ((50 + 31) / 32)) :=
  C5_resize_reuse_iff ⟨64, true⟩ 50 (by decide) (by decide)

/-- C6, counterexample: enqueue three frames under the default bound 3,
then lower the bound to 1: the queue still holds 3 frames, so the claimed
invariant is violated right after setMaxAvailableFrameSize. -/
theorem C6_counterexample :
    ¬((setMaxAvailableFrameSize
        (newFrameAvailable
          (newFrameAvailable
            (newFrameAvailable ⟨[], DEFAULT_MAX_AVAILABLE_FRAME_SIZE⟩ 1 false) 2 false)
          3 false) 1).availableFrames.length ≤
      (setMaxAvailableFrameSize
        (newFrameAvailable
          (newFrameAvailable
            (newFrameAvailable ⟨[], DEFAULT_MAX_AVAILABLE_FRAME_SIZE⟩ 1 false) 2 false)
          3 false) 1).maxAvailableFrameSize) := by decide

/-- C6 (amended): newFrameAvailable and grab preserve the bound
availableFrames.size at most maxAvailableFrameSize (for grab, provided the
queue observed when its wait ends also satisfies the bound), and when
newFrameAvailable enqueues onto a queue exactly at a positive bound and the
callback did not consume the frame, exactly the oldest frame is dropped and
the FIFO order of the rest is preserved; setMaxAvailableFrameSize however
only stores the new bound and does not trim the queue, so the bound can be
violated right after it is lowered. -/
theorem C6_queue_bound (st : QueueState) (frame : Nat) (consumed : Bool)
    (hlen : st.availableFrames.length ≤ st.maxAvailableFrameSize) :
    (newFrameAvailable st frame consumed).availableFrames.length ≤
      st.maxAvailableFrameSize ∧
    (newFrameAvailable st frame consumed).maxAvailableFrameSize =
      st.maxAvailableFrameSize ∧
    (st.availableFrames.length = st.maxAvailableFrameSize → consumed = false →
      0 < st.maxAvailableFrameSize →
      (newFrameAvailable st frame consumed).availableFrames =
        st.availableFrames.tail ++ [frame]) ∧
    (∀ (timeoutInMs : Nat) (started : Bool) (queueAfterWait : List Nat),
      queueAfterWait.length ≤ st.maxAvailableFrameSize →
      (ProviderImp.grab st.availableFrames timeoutInMs started queueAfterWait).queueAfter.length ≤
        st.maxAvailableFrameSize) := by
  refine ⟨?_, ?_, ?_, ?_⟩
  · rw [newFrameAvailable]
    by_cases hcb : consumed
    · simp [hcb, hlen]
    · simp only [hcb, if_false, Bool.false_eq_true]
      by_cases hover : st.maxAvailableFrameSize < (st.availableFrames ++ [frame]).length
      · simp only [if_pos hover]
        simp only [List.length_tail, List.length_append, List.length_singleton]
        omega
      · simp only [if_neg hover]
        simp only [List.length_append, List.length_singleton] at hover ⊢
        omega
  · rw [newFrameAvailable]
    by_cases hcb : consumed
    · simp [hcb]
    · simp only [hcb, Bool.false_eq_true, if_false]
      split <;> rfl
  · intro hfull hcb hpos
    rw [newFrameAvailable, hcb]
    simp only [Bool.false_eq_true, if_false]
    have hover : st.maxAvailableFrameSize < (st.availableFrames ++ [frame]).length := by
      simp only [List.length_append, List.length_singleton]
      omega
    rw [if_pos hover]
    cases hq : st.availableFrames with
    | nil => rw [hq] at hfull; simp at hfull; omega
    | cons a rest => simp [hq]
  · intro timeoutInMs started queueAfterWait hqw
    rw [ProviderImp.grab.eq_def]
    by_cases hwait : st.availableFrames.isEmpty ∧ 0 < timeoutInMs
    · rw [if_pos hwait]
      by_cases hst : started
      · simp only [hst]
        cases queueAfterWait with
        | nil => simp
        | cons f rest => simp at hqw ⊢; omega
      · cases started with
        | false => simpa using hlen
        | true => simp at hst
    · rw [if_neg hwait]
      cases hq : st.availableFrames with
      | nil => simp
      | cons f rest => rw [hq] at hlen; simp at hlen ⊢; omega

/-- C6 witness: pushing frame 9 onto the full queue [4, 5, 6] at bound 3
drops frame 4 and yields [5, 6, 9]. -/
theorem C6_queue_bound_witness :
    (newFrameAvailable ⟨[4, 5, 6], 3⟩ 9 false).availableFrames.length ≤ 3 ∧
    (newFrameAvailable ⟨[4, 5, 6], 3⟩ 9 false).maxAvailableFrameSize = 3 ∧
    ([4, 5, 6].length = 3 → false = false → 0 < 3 →
      (newFrameAvailable ⟨[4, 5, 6], 3⟩ 9 false).availableFrames =
        [4, 5, 6].tail ++ [9]) ∧
    (∀ (timeoutInMs : Nat) (started : Bool) (queueAfterWait : List Nat),
      queueAfterWait.length ≤ 3 →
      (ProviderImp.grab [4, 5, 6] timeoutInMs started queueAfterWait).queueAfter.length ≤ 3) :=
  C6_queue_bound ⟨[4, 5, 6], 3⟩ 9 false (by decide)

/-- C8: grab with timeout 0 and an empty queue returns nothing at once: it
neither enters the waiting branch (waited = false) nor consults isStarted
(checkedStarted = false), whatever the started flag and whatever frames
could have been observed after a wait. -/
theorem C8_grab_zero_timeout (started : Bool) (queueAfterWait : List Nat) :
    ProviderImp.grab [] 0 started queueAfterWait =
      ⟨none, [], false, false⟩ := by
  rw [ProviderImp.grab.eq_def, if_neg (by simp)]

/-- C9: set stores FrameOrientation (truncated to int) and reports success
for every value, yet get answers NAN (none) for FrameOrientation while
every other property of the table is read back as a value. -/
theorem C9_frame_orientation_write_only (pl : Platform) (st st2 : ProviderState) (v : Rat) :
    (ProviderImp.set pl st PropertyName.FrameOrientation v).1 = true ∧
    (ProviderImp.set pl st PropertyName.FrameOrientation v).2.m_frameOrientation =
      cppIntCast v ∧
    ProviderImp.get st2 PropertyName.FrameOrientation = none ∧
    (∀ p : PropertyName, p ≠ PropertyName.FrameOrientation →
      ∃ x, ProviderImp.get st2 p = some x) := by
  refine ⟨rfl, rfl, rfl, ?_⟩
  intro p hp
  cases p with
  | Width => exact ⟨_, rfl⟩
  | Height => exact ⟨_, rfl⟩
  | FrameRate => exact ⟨_, rfl⟩
  | PixelFormatInternal => exact ⟨_, rfl⟩
  | PixelFormatOutput => exact ⟨_, rfl⟩
  | FrameOrientation => exact absurd rfl hp

/-- C9 witness: concrete readout on the default provider state. -/
theorem C9_frame_orientation_write_only_witness :
    (ProviderImp.set ⟨false, false⟩ testProviderState PropertyName.FrameOrientation 7).1 = true ∧
    (ProviderImp.set ⟨false, false⟩ testProviderState
        PropertyName.FrameOrientation 7).2.m_frameOrientation = cppIntCast 7 ∧
    ProviderImp.get testProviderState PropertyName.FrameOrientation = none ∧
    ∃ x, ProviderImp.get testProviderState PropertyName.Width = some x :=
  ⟨(C9_frame_orientation_write_only ⟨false, false⟩ testProviderState testProviderState 7).1,
    (C9_frame_orientation_write_only ⟨false, false⟩ testProviderState testProviderState 7).2.1,
    (C9_frame_orientation_write_only ⟨false, false⟩ testProviderState testProviderState 7).2.2.1,
    (C9_frame_orientation_write_only ⟨false, false⟩ testProviderState testProviderState 7).2.2.2
      PropertyName.Width (by decide)⟩

/-- C10: requesting a SIMD backend that the host lacks reports failure but
has already switched the other backends off, so the selected backend can
change across the failed call: on an Apple host without AVX2, the backend
goes from AppleAccelerate to CPU although setConvertBackend(AVX2) returned
false. -/
theorem C10_set_backend_failure_not_atomic (c : SimdCaps) (s : SimdState) :
    (c.hasAVX2 = false →
      (setConvertBackend c ConvertBackend.AVX2 s).1 = false ∧
      (setConvertBackend c ConvertBackend.AVX2 s).2.sEnableAppleAccelerate = false ∧
      (setConvertBackend c ConvertBackend.AVX2 s).2.sEnableNEON = false) ∧
    (c.hasNEON = false →
      (setConvertBackend c ConvertBackend.NEON s).1 = false ∧
      (setConvertBackend c ConvertBackend.NEON s).2.sEnableAppleAccelerate = false ∧
      (setConvertBackend c ConvertBackend.NEON s).2.sEnableAVX2 = false) ∧
    (c.hasAppleAccelerate = false →
      (setConvertBackend c ConvertBackend.AppleAccelerate s).1 = false ∧
      (setConvertBackend c ConvertBackend.AppleAccelerate s).2.sEnableAVX2 = false ∧
      (setConvertBackend c ConvertBackend.AppleAccelerate s).2.sEnableNEON = false) ∧
    (getConvertBackend ⟨true, false, false⟩ ⟨true, true, true⟩ =
        ConvertBackend.AppleAccelerate ∧
      (setConvertBackend ⟨true, false, false⟩ ConvertBackend.AVX2 ⟨true, true, true⟩).1 = false ∧
      getConvertBackend ⟨true, false, false⟩
        (setConvertBackend ⟨true, false, false⟩ ConvertBackend.AVX2 ⟨true, true, true⟩).2 =
        ConvertBackend.CPU) := by
  refine ⟨?_, ?_, ?_, by decide⟩
  · intro h
    exact ⟨h, rfl, rfl⟩
  · intro h
    simp [setConvertBackend, enableNEON, enableAppleAccelerate, enableAVX2, h]
  · intro h
    simp [setConvertBackend, enableNEON, enableAppleAccelerate, enableAVX2, h]

/-- C10 witness: the host without AVX2. -/
theorem C10_set_backend_failure_not_atomic_witness :
    (setConvertBackend ⟨true, false, false⟩ ConvertBackend.AVX2 ⟨true, true, true⟩).1 = false ∧
    (setConvertBackend ⟨true, false, false⟩ ConvertBackend.AVX2
        ⟨true, true, true⟩).2.sEnableAppleAccelerate = false ∧
    (setConvertBackend ⟨true, false, false⟩ ConvertBackend.AVX2
        ⟨true, true, true⟩).2.sEnableNEON = false :=
  (C10_set_backend_failure_not_atomic ⟨true, false, false⟩ ⟨true, true, true⟩).1 rfl

/-- C1: on the 4x2 RGB24 frame of the end-to-end scenario, converting to
BGR24 without flip does not swap bytes 0 and 2 of each 3-byte pixel: the
equal-channel-count branch of inplaceConvertFrameRGB invokes the 4-channel
shuffle (rgbaToBgra, colorShuffle with 4 input and 4 output channels), so
output byte 3 of row 0 is 0x10 (source byte 3, read as the alpha of a
4-byte pixel) instead of 0x12, the value the claimed per-pixel triple swap
produces there. -/
theorem C1_rgb24_to_bgr24_bug :
    (inplaceConvertFrameRGB c1Frame PixelFormat.BGR24 false zeroBuf).data0 3 = 16 ∧
    rgb24SwapExpectedByte c1Src 12 0 1 0 = 18 ∧
    (inplaceConvertFrameRGB c1Frame PixelFormat.BGR24 false zeroBuf).data0 3 ≠
      rgb24SwapExpectedByte c1Src 12 0 1 0 := by decide

/-- C7, counterexample: with an overlapping intermediate stride (0), the
double RB swap does not reproduce the input: on a 1x2 three-channel image
the second row overwrites the first in the intermediate buffer, so byte 0
of the round trip is 4 (from row 1) instead of the original 1, refuting
the claim for every stride. -/
theorem C7_counterexample :
    colorShuffle 3 3 true (colorShuffle 3 3 true c7Src 3 zeroBuf 0 1 2) 0 zeroBuf 3 1 2 0 = 4 ∧
    c7Src 0 = 1 ∧
    colorShuffle 3 3 true (colorShuffle 3 3 true c7Src 3 zeroBuf 0 1 2) 0 zeroBuf 3 1 2 0 ≠
      c7Src 0 := by decide

/-- C7 (amended): for channel count 3 or 4, any width, any height of either
sign, and any strides whose destination pitch is at least channels times
width (rows do not overlap, as in every real frame), applying the RB-swap
shuffle of the same channel count twice reproduces every input pixel byte
exactly. -/
theorem C7_rb_swap_round_trip (c w : Nat) (hc : c = 3 ∨ c = 4) (h : Int)
    (src mid out : Buf) (s1 s2 s3 : Int)
    (hs2 : ((w * c : Nat) : Int) ≤ s2) (hs3 : ((w * c : Nat) : Int) ≤ s3)
    (y x k : Nat) (hy : y < h.natAbs) (hx : x < w) (hk : k < c) :
    colorShuffle c c true (colorShuffle c c true src s1 mid s2 w h) s2 out s3 w h
        ((y : Int) * s3 + (x : Int) * c + (k : Int)) =
      src ((y : Int) * s1 + (x : Int) * c + (k : Int)) := by
  have hc3 : 3 ≤ c ∧ c ≤ 4 := by rcases hc with h3 | h4 <;> omega
  set t : Nat := if h < 0 then h.natAbs - 1 - y else y with ht
  have htlt : t < h.natAbs := by rw [ht]; split <;> omega
  have hbase3 : dstRowBase h s3 t = (y : Int) * s3 := by
    rw [dstRowBase, ht]
    by_cases hneg : h < 0
    · rw [if_pos hneg, if_pos hneg]
      have hcast : ((h.natAbs - 1 - y : Nat) : Int) = (h.natAbs : Int) - 1 - (y : Int) := by
        omega
      rw [hcast]; ring
    · rw [if_neg hneg, if_neg hneg]
  have hbase2 : dstRowBase h s2 y = (t : Int) * s2 := by
    rw [dstRowBase, ht]
    by_cases hneg : h < 0
    · rw [if_pos hneg, if_pos hneg]
      have hcast : ((h.natAbs - 1 - y : Nat) : Int) = (h.natAbs : Int) - 1 - (y : Int) := by
        omega
      rw [hcast]
    · rw [if_neg hneg, if_neg hneg]
  rw [show (y : Int) * s3 + (x : Int) * c + (k : Int) =
      dstRowBase h s3 t + (x : Int) * c + (k : Int) from by rw [hbase3]]
  rw [colorShuffle_get c c true _ s2 out s3 w h t x k htlt hx hk hs3]
  by_cases hk3 : k < 3
  · -- one of the color bytes: the swap reads byte 2-k, and swapping twice
    -- returns byte k
    have hj : (2 : Int) - (k : Int) = ((2 - k : Nat) : Int) := by omega
    simp only [shuffledByte]
    rw [if_pos hk3, if_pos trivial, hj]
    rw [show (t : Int) * s2 + (x : Int) * c + ((2 - k : Nat) : Int) =
        dstRowBase h s2 y + (x : Int) * c + ((2 - k : Nat) : Int) from by rw [hbase2]]
    rw [colorShuffle_get c c true src s1 mid s2 w h y x (2 - k) hy hx (by omega) hs2]
    simp only [shuffledByte]
    rw [if_pos (show 2 - k < 3 by omega), if_pos trivial]
    have h2k : (2 : Int) - ((2 - k : Nat) : Int) = (k : Int) := by omega
    rw [h2k]
  · -- the alpha byte, present only when c = 4: copied verbatim twice
    have hk4 : k = 3 := by omega
    have hc4 : c = 4 := by omega
    subst hk4
    simp only [shuffledByte]
    rw [if_neg (by omega), if_pos hc4]
    rw [show (t : Int) * s2 + (x : Int) * c + (3 : Int) =
        dstRowBase h s2 y + (x : Int) * c + ((3 : Nat) : Int) from by rw [hbase2]; norm_num]
    rw [colorShuffle_get c c true src s1 mid s2 w h y x 3 hy hx (by omega) hs2]
    simp only [shuffledByte]
    rw [if_neg (by omega), if_pos hc4]
    norm_num

/-- C7 witness: a 1x2 three-channel image with tight strides round-trips at
pixel (0, 0), byte 0. -/
theorem C7_rb_swap_round_trip_witness :
    colorShuffle 3 3 true (colorShuffle 3 3 true c7Src 3 zeroBuf 3 1 2) 3 zeroBuf 3 1 2
        (((0 : Nat) : Int) * 3 + ((0 : Nat) : Int) * 3 + ((0 : Nat) : Int)) =
      c7Src (((0 : Nat) : Int) * 3 + ((0 : Nat) : Int) * 3 + ((0 : Nat) : Int)) :=
  C7_rb_swap_round_trip 3 1 (Or.inl rfl) 2 c7Src zeroBuf zeroBuf 3 3 3 (by decide) (by decide)
    0 0 0 (by decide) (by decide) (by decide)

end Ccap
